import Mathlib

/-!
Shallow embedding of the IronTelemetry Python SDK
(`src/irontelemetry/{types,queue,breadcrumbs,transport,client,config,journey}.py`)
and proofs about its capture-and-delivery pipeline.

Modelling conventions:
* Python `dict` fields typed `Dict[str, str]` / `Dict[str, Any]` are modelled as
  association lists; none of the verified operations touch their keys, they are
  pure pass-through data.
* Python `Any` values (breadcrumb `data`, user `data`, `extra` values, journey
  `metadata` values) are modelled by a concrete JSON value type `Json`.
* `datetime` values are abstract instants; `datetime.isoformat` /
  `datetime.fromisoformat` are exact mutual inverses in CPython for naive
  datetimes, so the ISO rendering of an instant is modelled as a wrapper
  `IsoTimestamp` that determines the instant.
* Fallible Python operations (a `list.pop(0)` that can raise `IndexError`,
  `response.json()` that can raise, enum construction from a string) are
  modelled with `Except` / `Option`.
* Machine ints (`max_size`, `max_breadcrumbs`) are modelled as `Int`, since
  Python ints are unbounded and may be negative.
-/

/-- Concrete JSON-like values standing for Python `Any` payload data. -/
inductive Json where
  | null : Json
  | bool : Bool → Json
  | num : Int → Json
  | str : String → Json
  | arr : List Json → Json
  | obj : List (String × Json) → Json

/-- An abstract time instant, standing for a Python naive `datetime` value
(microseconds since some epoch; the representation is irrelevant, only
equality matters to the claims). -/
structure DateTime where
  epochMicros : Int
deriving DecidableEq

/-- The ISO-8601 string produced by `datetime.isoformat()`. CPython guarantees
`datetime.fromisoformat(d.isoformat()) == d` for naive datetimes, i.e. the
rendering determines the instant, so we model the rendered string by the
instant it denotes. -/
structure IsoTimestamp where
  instant : DateTime
deriving DecidableEq

/-- Model of `datetime.isoformat()`. -/
def DateTime.isoformat (d : DateTime) : IsoTimestamp := ⟨d⟩

/-- Model of `datetime.fromisoformat()` applied to a string produced by
`isoformat` (on such strings it never raises and inverts `isoformat`). -/
def IsoTimestamp.fromisoformat (s : IsoTimestamp) : DateTime := s.instant

/-- Model of `types.SeverityLevel` (a `str`-valued enum). -/
inductive SeverityLevel where
  | debug | info | warning | error | fatal
deriving DecidableEq

/-- The `.value` string of a `SeverityLevel` member. -/
def SeverityLevel.value : SeverityLevel → String
  | .debug => "debug"
  | .info => "info"
  | .warning => "warning"
  | .error => "error"
  | .fatal => "fatal"

/-- Model of the enum call `SeverityLevel(s)`: returns the member whose value
is `s`, or `none` where Python raises `ValueError`. -/
def SeverityLevel.ofValue (s : String) : Option SeverityLevel :=
  if s = "debug" then some .debug
  else if s = "info" then some .info
  else if s = "warning" then some .warning
  else if s = "error" then some .error
  else if s = "fatal" then some .fatal
  else none

/-- Model of `types.BreadcrumbCategory` (a `str`-valued enum). -/
inductive BreadcrumbCategory where
  | ui | http | navigation | console | auth | business | notification | custom
deriving DecidableEq

/-- The `.value` string of a `BreadcrumbCategory` member. -/
def BreadcrumbCategory.value : BreadcrumbCategory → String
  | .ui => "ui"
  | .http => "http"
  | .navigation => "navigation"
  | .console => "console"
  | .auth => "auth"
  | .business => "business"
  | .notification => "notification"
  | .custom => "custom"

/-- Model of the enum call `BreadcrumbCategory(s)`. -/
def BreadcrumbCategory.ofValue (s : String) : Option BreadcrumbCategory :=
  if s = "ui" then some .ui
  else if s = "http" then some .http
  else if s = "navigation" then some .navigation
  else if s = "console" then some .console
  else if s = "auth" then some .auth
  else if s = "business" then some .business
  else if s = "notification" then some .notification
  else if s = "custom" then some .custom
  else none

/-- Model of `types.Breadcrumb`. -/
structure Breadcrumb where
  timestamp : DateTime
  category : BreadcrumbCategory
  message : String
  level : SeverityLevel
  data : Option Json

/-- Model of `types.User`. -/
structure User where
  id : String
  email : Option String
  name : Option String
  data : Option Json

/-- Model of `types.StackFrame`. -/
structure StackFrame where
  function : Option String
  filename : Option String
  lineno : Option Int
  colno : Option Int
  context : Option (List String)
deriving DecidableEq

/-- Model of `types.ExceptionInfo`. -/
structure ExceptionInfo where
  type : String
  message : String
  stacktrace : Option (List StackFrame)
deriving DecidableEq

/-- Model of `types.PlatformInfo`. -/
structure PlatformInfo where
  name : String
  version : Option String
  os : Option String
deriving DecidableEq

/-- Model of `types.JourneyContext`. -/
structure JourneyContext where
  journey_id : String
  name : String
  started_at : DateTime
  current_step : Option String
  metadata : List (String × Json)

/-- Model of `types.TelemetryEvent`. -/
structure TelemetryEvent where
  event_id : String
  timestamp : DateTime
  level : SeverityLevel
  platform : PlatformInfo
  tags : List (String × String)
  extra : List (String × Json)
  breadcrumbs : List Breadcrumb
  message : Option String
  exception : Option ExceptionInfo
  user : Option User
  journey : Option JourneyContext
  environment : Option String
  app_version : Option String

/-- Model of `types.SendResult`. -/
structure SendResult where
  success : Bool
  event_id : Option String
  error : Option String
  queued : Bool
deriving DecidableEq

/-- Model of `OfflineQueue.enqueue` (queue.py lines 45-56). The in-memory queue is the
list; persistence failures are swallowed by `_save` and do not affect the
in-memory state, so `_save` is omitted. If `len(queue) >= max_size` the code
runs `queue.pop(0)`, which raises `IndexError` on an empty list; that raise is
modelled by `Except.error`. -/
def enqueue (maxSize : Int) (event : TelemetryEvent) (queue : List TelemetryEvent) :
    Except String (List TelemetryEvent) :=
  if (queue.length : Int) ≥ maxSize then
    match queue with
    | [] => .error "IndexError: pop from empty list"
    | _ :: rest => .ok (rest ++ [event])
  else
    .ok (queue ++ [event])

/-- Repeated `enqueue` of a list of events, left to right, propagating a raise. -/
def enqueueAll (maxSize : Int) (queue : List TelemetryEvent) :
    List TelemetryEvent → Except String (List TelemetryEvent)
  | [] => .ok queue
  | e :: rest =>
    match enqueue maxSize e queue with
    | .error msg => .error msg
    | .ok q => enqueueAll maxSize q rest

/-- Model of `OfflineQueue.remove` (queue.py lines 62-65): keeps every entry whose
`event_id` differs from the given id. -/
def removeEvent (queue : List TelemetryEvent) (eventId : String) : List TelemetryEvent :=
  queue.filter (fun e => e.event_id ≠ eventId)

/-- A stack-frame dict as written by `OfflineQueue._serialize_event`
(queue.py line 114): only `function`, `filename`, `lineno` are stored. -/
structure StoredFrame where
  function : Option String
  filename : Option String
  lineno : Option Int

/-- The `exception` dict written by `_serialize_event` (lines 110-117). -/
structure StoredException where
  type : String
  message : String
  stacktrace : Option (List StoredFrame)

/-- The `user` dict written by `_serialize_event` (lines 118-122): only `id`,
`email` and `data` are stored; `name` is not. -/
structure StoredUser where
  id : String
  email : Option String
  data : Option Json

/-- A breadcrumb dict written by `_serialize_event` (lines 125-134). -/
structure StoredBreadcrumb where
  timestamp : IsoTimestamp
  category : String
  message : String
  level : String
  data : Option Json

/-- The `journey` dict written by `_serialize_event` (lines 135-141). -/
structure StoredJourney where
  journey_id : String
  name : String
  current_step : Option String
  started_at : IsoTimestamp
  metadata : List (String × Json)

/-- The `platform` dict written by `_serialize_event` (lines 144-148). -/
structure StoredPlatform where
  name : String
  version : Option String
  os : Option String

/-- The top-level dict written by `OfflineQueue._serialize_event`
(queue.py lines 103-149); every key below is always present in that dict. -/
structure StoredEvent where
  event_id : String
  timestamp : IsoTimestamp
  level : String
  message : Option String
  exception : Option StoredException
  user : Option StoredUser
  tags : List (String × String)
  extra : List (String × Json)
  breadcrumbs : List StoredBreadcrumb
  journey : Option StoredJourney
  environment : Option String
  app_version : Option String
  platform : StoredPlatform

/-- The `stacktrace` entry of the exception dict: the Python expression
`[...] if event.exception.stacktrace else None` maps both `None` and the
empty list (both falsy) to `None`, and a non-empty list to the list of
three-key frame dicts. -/
def serializeStacktrace : Option (List StackFrame) → Option (List StoredFrame)
  | none => none
  | some [] => none
  | some (f :: fs) => some ((f :: fs).map fun g => ⟨g.function, g.filename, g.lineno⟩)

/-- Model of `OfflineQueue._serialize_event` (queue.py lines 103-149). -/
def serialize_event (event : TelemetryEvent) : StoredEvent where
  event_id := event.event_id
  timestamp := event.timestamp.isoformat
  level := event.level.value
  message := event.message
  exception := event.exception.map fun exc =>
    ⟨exc.type, exc.message, serializeStacktrace exc.stacktrace⟩
  user := event.user.map fun u => ⟨u.id, u.email, u.data⟩
  tags := event.tags
  extra := event.extra
  breadcrumbs := event.breadcrumbs.map fun b =>
    ⟨b.timestamp.isoformat, b.category.value, b.message, b.level.value, b.data⟩
  journey := event.journey.map fun j =>
    ⟨j.journey_id, j.name, j.current_step, j.started_at.isoformat, j.metadata⟩
  environment := event.environment
  app_version := event.app_version
  platform := ⟨event.platform.name, event.platform.version, event.platform.os⟩

/-- The exception branch of `_deserialize_event` (queue.py lines 153-170):
`if exc_data.get("stacktrace"):` treats `None` and `[]` alike, and each
restored `StackFrame` gets default `colno=None`, `context=None`. -/
def deserializeStacktrace : Option (List StoredFrame) → Option (List StackFrame)
  | none => none
  | some [] => none
  | some (f :: fs) => some ((f :: fs).map fun g => ⟨g.function, g.filename, g.lineno, none, none⟩)

/-- A breadcrumb entry of `_deserialize_event` (queue.py lines 192-201); the
enum constructors `BreadcrumbCategory(...)` / `SeverityLevel(...)` raise on a
string outside the range of the enum, modelled by `Option`. -/
def deserializeBreadcrumb (b : StoredBreadcrumb) : Option Breadcrumb := do
  let cat ← BreadcrumbCategory.ofValue b.category
  let lvl ← SeverityLevel.ofValue b.level
  pure ⟨b.timestamp.fromisoformat, cat, b.message, lvl, b.data⟩

/-- Model of `OfflineQueue._deserialize_event` (queue.py lines 151-224), on dicts of
the shape `_serialize_event` writes (in which every key is present, so the
`.get` fall-backs for absent keys are never exercised; a present `exception`,
`user` or `journey` dict is non-empty, hence truthy). The restored `User`
takes the dataclass default `name=None`. -/
def deserialize_event (data : StoredEvent) : Option TelemetryEvent := do
  let exception ← match data.exception with
    | none => pure none
    | some excData =>
        pure (some (ExceptionInfo.mk excData.type excData.message
          (deserializeStacktrace excData.stacktrace)))
  let user : Option User := data.user.map fun u => ⟨u.id, u.email, none, u.data⟩
  let journey : Option JourneyContext := data.journey.map fun j =>
    ⟨j.journey_id, j.name, j.started_at.fromisoformat, j.current_step, j.metadata⟩
  let breadcrumbs ← data.breadcrumbs.mapM deserializeBreadcrumb
  let platform : PlatformInfo := ⟨data.platform.name, data.platform.version, data.platform.os⟩
  let lvl ← SeverityLevel.ofValue data.level
  pure
    { event_id := data.event_id
      timestamp := data.timestamp.fromisoformat
      level := lvl
      message := data.message
      exception := exception
      user := user
      tags := data.tags
      extra := data.extra
      breadcrumbs := breadcrumbs
      journey := journey
      environment := data.environment
      app_version := data.app_version
      platform := platform }

/-- Python slice `l[-m:]` (with `m` an arbitrary Python int): for `m ≥ 1` it
keeps the last `m` elements (all of `l` when `len(l) ≤ m`); for `m ≤ 0` the
start index is the non-negative `-m`, so it drops the first `-m` elements. -/
def pySliceLast (m : Int) (l : List α) : List α :=
  if 1 ≤ m then l.drop (l.length - m.toNat) else l.drop (-m).toNat

/-- Model of `BreadcrumbManager.add` (breadcrumbs.py lines 16-36): append, then if the
size exceeds `max_breadcrumbs`, trim to `self._breadcrumbs[-self._max_breadcrumbs:]`.
The freshly built breadcrumb (message, category, level, data plus a
`datetime.now()` timestamp) is passed in whole. -/
def addCrumb (maxBreadcrumbs : Int) (buffer : List Breadcrumb) (b : Breadcrumb) :
    List Breadcrumb :=
  let buffer := buffer ++ [b]
  if (buffer.length : Int) > maxBreadcrumbs then pySliceLast maxBreadcrumbs buffer
  else buffer

/-- A sequence of `add` calls, left to right. -/
def addAllCrumbs (maxBreadcrumbs : Int) (buffer : List Breadcrumb)
    (bs : List Breadcrumb) : List Breadcrumb :=
  bs.foldl (addCrumb maxBreadcrumbs) buffer

/-- Model of `BreadcrumbManager.get_all` (breadcrumbs.py lines 45-47): a copy of the
buffer, insertion order. -/
def getAllCrumbs (buffer : List Breadcrumb) : List Breadcrumb := buffer

/-- The body of an HTTP response as seen by `Transport.send`: either it parses
as a JSON object (with or without an `eventId` entry usable by
`result.get("eventId", ...)`), or `response.json()` / `result.get` raises
(invalid JSON, or a JSON value that is not an object), carrying the exception
text `str(e)`. -/
inductive RespBody where
  | notJsonObject (errText : String) : RespBody
  | jsonObject (eventId : Option String) : RespBody

/-- An HTTP response delivered to `Transport.send`. -/
structure HttpResponse where
  status_code : Nat
  text : String
  body : RespBody

/-- Model of `Transport.send` (transport.py lines 27-62), given the outcome of the POST:
`Except.error msg` models a transport-level exception from `httpx` (caught by
the outer `except`, yielding `success=False, error=str(e)`). On a response,
status ≥ 400 fails with `"HTTP {status}: {text}"`; otherwise `response.json()`
is consulted: if it raises (or is not a dict) the outer `except` again yields
failure, else the result is success with `result.get("eventId", event.event_id)`. -/
def transportSend (event : TelemetryEvent) (post : Except String HttpResponse) : SendResult :=
  match post with
  | .error e => ⟨false, none, some e, false⟩
  | .ok response =>
    if response.status_code ≥ 400 then
      ⟨false, none, some ("HTTP " ++ toString response.status_code ++ ": " ++ response.text), false⟩
    else
      match response.body with
      | .notJsonObject errText => ⟨false, none, some errText, false⟩
      | .jsonObject eventId => ⟨true, some (eventId.getD event.event_id), none, false⟩

/-- The mutable state of a `Journey` that event construction reads
(journey.py): its user copy; the other fields (id, name, step, metadata) do
not matter to the user-precedence claim. -/
structure JourneyUserState where
  user : Option User

/-- The slice of `TelemetryClient` state that decides which user an event
carries (client.py lines 47-50): the global user and the current journey. -/
structure ClientUserState where
  user : Option User
  currentJourney : Option JourneyUserState

/-- Model of `Journey.set_user` (journey.py lines 23-31): it builds `User(id=id, email=email,
data=data)`, so the copy held by the journey always has `name=None`. -/
def journeyUserCopy (u : User) : User := ⟨u.id, u.email, none, u.data⟩

/-- Model of `TelemetryClient.start_journey` (client.py lines 132-147): a fresh journey
becomes current; if the client has a user (`if self._user:` — a dataclass
instance is always truthy), it is copied into the journey via
`Journey.set_user(id, email, data)`. -/
def startJourney (c : ClientUserState) : ClientUserState :=
  { c with currentJourney := some ⟨c.user.map journeyUserCopy⟩ }

/-- The user chosen by `TelemetryClient._create_event` (client.py line 175):
`self._current_journey.get_user() if self._current_journey else self._user`. -/
def createEventUser (c : ClientUserState) : Option User :=
  match c.currentJourney with
  | some j => j.user
  | none => c.user

/-- What a call to `TelemetryClient._send_event` produces: the returned
`SendResult`, the offline queue afterwards (`none` when no queue is
configured), and the list of events handed to `Transport.send`, in order. -/
structure SendOutcome where
  result : SendResult
  queue : Option (List TelemetryEvent)
  sends : List TelemetryEvent

/-- Model of `TelemetryClient._send_event` (client.py lines 193-222). `draw` is the
value of `random.random()` (uniform in `[0,1)`) and `sampleRate` the clamped
`sample_rate`, both exact rationals — the Python float comparison
`random.random() > self._options.sample_rate` is an exact order comparison on
the represented values. `beforeSend` is the optional `before_send` hook
(`none` result = drop). `transport` gives the result of `Transport.send` per
event. `queue` is the configured offline queue (`max_size`, contents), or
`none` when `enable_offline_queue` is false. An `IndexError` escaping
`OfflineQueue.enqueue` propagates as `Except.error`. -/
def sendEvent (sampleRate draw : ℚ)
    (beforeSend : Option (TelemetryEvent → Option TelemetryEvent))
    (transport : TelemetryEvent → SendResult)
    (queue : Option (Int × List TelemetryEvent))
    (event : TelemetryEvent) : Except String SendOutcome :=
  let queueContents := queue.map (fun q => q.2)
  if draw > sampleRate then
    .ok ⟨⟨true, some event.event_id, none, false⟩, queueContents, []⟩
  else
    match (match beforeSend with
           | none => some event
           | some hook => hook event) with
    | none => .ok ⟨⟨true, some event.event_id, none, false⟩, queueContents, []⟩
    | some event' =>
      let result := transport event'
      match queue, result.success with
      | some (maxSize, contents), false =>
          (enqueue maxSize event' contents).map fun q' =>
            ⟨⟨result.success, some event'.event_id, result.error, true⟩, some q', [event']⟩
      | _, _ => .ok ⟨result, queueContents, [event']⟩

/-- Model of `TelemetryClient._process_queue` (client.py lines 255-266): returns the
queue afterwards and the snapshot of events handed to `Transport.send`.
`queue = none` models a client with no configured queue; `online` is
`Transport.is_online()`; `sendSucceeds e` tells whether `Transport.send e`
reports success. The loop iterates over the snapshot `get_all()` while
`remove` mutates the live queue. -/
def processQueue (queue : Option (List TelemetryEvent)) (online : Bool)
    (sendSucceeds : TelemetryEvent → Bool) :
    Option (List TelemetryEvent) × List TelemetryEvent :=
  match queue with
  | none => (none, [])
  | some q =>
    if q.isEmpty then (some q, [])
    else if !online then (some q, [])
    else
      (some (q.foldl (fun acc e =>
        if sendSucceeds e then removeEvent acc e.event_id else acc) q), q)

/-- A minimal concrete `TelemetryEvent` used to instantiate theorems. -/
def mkEvent (id : String) : TelemetryEvent :=
  ⟨id, ⟨0⟩, .info, ⟨"python", none, none⟩, [], [], [], none, none, none, none, none, none⟩

/-- A minimal concrete `Breadcrumb` used to instantiate theorems. -/
def mkCrumb (msg : String) : Breadcrumb :=
  ⟨⟨0⟩, .custom, msg, .info, none⟩

/-- Invariant behind the bounded-FIFO property: enqueueing a list of events
into a queue that respects the bound keeps the last `maxSize` of the combined
list and never raises (the `pop(0)` is only reached on a non-empty queue). -/
theorem enqueueAll_bounded (m : Int) (hm : 1 ≤ m) :
    ∀ (evs q : List TelemetryEvent), (q.length : Int) ≤ m →
      enqueueAll m q evs = .ok ((q ++ evs).drop (q.length + evs.length - m.toNat)) := by
  intro evs
  induction evs with
  | nil =>
    intro q hq
    have h0 : q.length + ([] : List TelemetryEvent).length - m.toNat = 0 := by
      simp only [List.length_nil]
      omega
    rw [h0]
    simp [enqueueAll]
  | cons e rest ih =>
    intro q hq
    by_cases hfull : (q.length : Int) ≥ m
    · cases q with
      | nil =>
        exfalso
        simp only [List.length_nil, Nat.cast_zero] at hfull
        omega
      | cons x t =>
        have hlen : t.length + 1 = m.toNat := by
          simp only [List.length_cons] at hq hfull
          omega
        have hstep : enqueue m e (x :: t) = .ok (t ++ [e]) := by
          rw [enqueue.eq_def, if_pos hfull]
        have ht : ((t ++ [e]).length : Int) ≤ m := by
          simp only [List.length_append, List.length_cons, List.length_nil]
          omega
        rw [show enqueueAll m (x :: t) (e :: rest) =
              (match enqueue m e (x :: t) with
               | .error msg => .error msg
               | .ok q => enqueueAll m q rest) from rfl,
            hstep]
        change enqueueAll m (t ++ [e]) rest = _
        rw [ih (t ++ [e]) ht]
        have hidx : (t ++ [e]).length + rest.length - m.toNat = rest.length := by
          simp only [List.length_append, List.length_cons, List.length_nil]
          omega
        have hidx2 : (x :: t).length + (e :: rest).length - m.toNat = rest.length + 1 := by
          simp only [List.length_cons]
          omega
        rw [hidx, hidx2]
        have hshape : ((x :: t) ++ e :: rest) = x :: (t ++ [e] ++ rest) := by simp
        rw [hshape, List.drop_succ_cons]
    · have hstep : enqueue m e q = .ok (q ++ [e]) := by
        rw [enqueue.eq_def, if_neg hfull]
      have hlt : ((q ++ [e]).length : Int) ≤ m := by
        simp only [List.length_append, List.length_cons, List.length_nil]
        push_cast
        omega
      rw [show enqueueAll m q (e :: rest) =
            (match enqueue m e q with
             | .error msg => .error msg
             | .ok q => enqueueAll m q rest) from rfl,
          hstep]
      change enqueueAll m (q ++ [e]) rest = _
      rw [ih (q ++ [e]) hlt]
      have hidx : (q ++ [e]).length + rest.length - m.toNat =
          q.length + (e :: rest).length - m.toNat := by
        simp only [List.length_append, List.length_cons, List.length_nil]
        omega
      have hshape : (q ++ [e]) ++ rest = q ++ e :: rest := by simp
      rw [hidx, hshape]

/-- C5: starting from an empty offline queue with `max_size ≥ 1`, enqueueing
`max_size + k` events (`k ≥ 1`) leaves exactly `max_size` entries, and those
entries are the last `max_size` events enqueued, in insertion order. -/
theorem offline_queue_overflow_keeps_last (m k : Nat) (hm : 1 ≤ m) (hk : 1 ≤ k)
    (evs : List TelemetryEvent) (hlen : evs.length = m + k) :
    enqueueAll (m : Int) [] evs = .ok (evs.drop k) ∧ (evs.drop k).length = m := by
  have h := enqueueAll_bounded (m : Int) (by exact_mod_cast hm) evs [] (by simp)
  have hidx : ([] : List TelemetryEvent).length + evs.length - (m : Int).toNat = k := by
    simp only [List.length_nil, Nat.zero_add, hlen]
    omega
  rw [hidx] at h
  constructor
  · simpa using h
  · simp only [List.length_drop, hlen]
    omega

/-- Closed instance of `offline_queue_overflow_keeps_last` at `max_size = 1`,
two events enqueued. -/
theorem offline_queue_overflow_keeps_last_witness :
    enqueueAll (1 : Int) [] [mkEvent "a", mkEvent "b"] = .ok [mkEvent "b"] ∧
    ([mkEvent "a", mkEvent "b"].drop 1).length = 1 :=
  offline_queue_overflow_keeps_last 1 1 (by decide) (by decide)
    [mkEvent "a", mkEvent "b"] (by decide)

/-- C10: on an empty queue, `enqueue` raises `IndexError` (from `pop(0)`)
exactly when `max_size ≤ 0`, and appends normally when `max_size ≥ 1`. -/
theorem enqueue_empty_requires_positive_max (maxSize : Int) (e : TelemetryEvent) :
    (maxSize ≤ 0 → enqueue maxSize e [] = .error "IndexError: pop from empty list") ∧
    (1 ≤ maxSize → enqueue maxSize e [] = .ok [e]) := by
  constructor
  · intro h
    rw [enqueue.eq_def, if_pos (by simp only [List.length_nil, Nat.cast_zero]; omega)]
  · intro h
    rw [enqueue.eq_def, if_neg (by simp only [List.length_nil, Nat.cast_zero]; omega)]
    simp

/-- Closed instance of `enqueue_empty_requires_positive_max` at
`max_size = 0` and `max_size = 1`. -/
theorem enqueue_empty_requires_positive_max_witness :
    enqueue 0 (mkEvent "a") [] = .error "IndexError: pop from empty list" ∧
    enqueue 1 (mkEvent "a") [] = .ok [mkEvent "a"] :=
  ⟨(enqueue_empty_requires_positive_max 0 (mkEvent "a")).1 (by omega),
   (enqueue_empty_requires_positive_max 1 (mkEvent "a")).2 (by omega)⟩

/-- C9: with a configured offline queue, if `Transport.is_online()` is false
then `flush()` leaves the queue unchanged (length and contents) and hands no
event to `Transport.send`. -/
theorem flush_offline_noop (q : List TelemetryEvent)
    (sendSucceeds : TelemetryEvent → Bool) :
    processQueue (some q) false sendSucceeds = (some q, []) := by
  by_cases hq : q.isEmpty <;> simp [processQueue, hq]

/-- Invariant behind the breadcrumb ring-buffer property: a sequence of `add`
calls on a buffer within its bound keeps the last `maxBreadcrumbs` of the
combined list. -/
theorem addAllCrumbs_bounded (m : Int) (hm : 1 ≤ m) :
    ∀ (bs q : List Breadcrumb), (q.length : Int) ≤ m →
      addAllCrumbs m q bs = (q ++ bs).drop (q.length + bs.length - m.toNat) := by
  intro bs
  induction bs with
  | nil =>
    intro q hq
    have h0 : q.length + ([] : List Breadcrumb).length - m.toNat = 0 := by
      simp only [List.length_nil]
      omega
    rw [h0]
    simp [addAllCrumbs]
  | cons b rest ih =>
    intro q hq
    rw [show addAllCrumbs m q (b :: rest) = addAllCrumbs m (addCrumb m q b) rest from rfl]
    by_cases hfull : ((q ++ [b]).length : Int) > m
    · cases q with
      | nil =>
        exfalso
        simp only [List.nil_append, List.length_cons, List.length_nil] at hfull
        push_cast at hfull
        omega
      | cons x t =>
        have hlen : t.length + 1 = m.toNat := by
          simp only [List.length_append, List.length_cons, List.length_nil] at hfull
          simp only [List.length_cons] at hq
          push_cast at hfull
          omega
        have hstep : addCrumb m (x :: t) b = t ++ [b] := by
          rw [addCrumb, if_pos hfull, pySliceLast, if_pos hm]
          have : ((x :: t) ++ [b]).length - m.toNat = 1 := by
            simp only [List.length_append, List.length_cons, List.length_nil]
            omega
          rw [this]
          simp
        rw [hstep, ih (t ++ [b]) (by
          simp only [List.length_append, List.length_cons, List.length_nil]
          omega)]
        have hidx : (t ++ [b]).length + rest.length - m.toNat = rest.length := by
          simp only [List.length_append, List.length_cons, List.length_nil]
          omega
        have hidx2 : (x :: t).length + (b :: rest).length - m.toNat = rest.length + 1 := by
          simp only [List.length_cons]
          omega
        rw [hidx, hidx2]
        have hshape : ((x :: t) ++ b :: rest) = x :: (t ++ [b] ++ rest) := by simp
        rw [hshape, List.drop_succ_cons]
    · have hstep : addCrumb m q b = q ++ [b] := by
        rw [addCrumb, if_neg hfull]
      rw [hstep, ih (q ++ [b]) (by
        simp only [List.length_append, List.length_cons, List.length_nil] at hfull ⊢
        push_cast at hfull ⊢
        omega)]
      have hidx : (q ++ [b]).length + rest.length - m.toNat =
          q.length + (b :: rest).length - m.toNat := by
        simp only [List.length_append, List.length_cons, List.length_nil]
        omega
      have hshape : (q ++ [b]) ++ rest = q ++ b :: rest := by simp
      rw [hidx, hshape]

/-- C6: a sequence of `add` calls longer than `max_breadcrumbs`
(`max_breadcrumbs ≥ 1`) leaves `get_all()` with exactly `max_breadcrumbs`
breadcrumbs: the most recently added ones, in insertion order. -/
theorem breadcrumb_overflow_keeps_last (m : Nat) (hm : 1 ≤ m)
    (bs : List Breadcrumb) (hlen : m < bs.length) :
    getAllCrumbs (addAllCrumbs (m : Int) [] bs) = bs.drop (bs.length - m) ∧
    (bs.drop (bs.length - m)).length = m := by
  have h := addAllCrumbs_bounded (m : Int) (by exact_mod_cast hm) bs [] (by simp)
  have hidx : ([] : List Breadcrumb).length + bs.length - (m : Int).toNat =
      bs.length - m := by
    simp only [List.length_nil]
    omega
  rw [hidx] at h
  refine ⟨by simpa [getAllCrumbs] using h, ?_⟩
  simp only [List.length_drop]
  omega

/-- Closed instance of `breadcrumb_overflow_keeps_last`: three adds with
`max_breadcrumbs = 2` keep the last two breadcrumbs. -/
theorem breadcrumb_overflow_keeps_last_witness :
    getAllCrumbs (addAllCrumbs (2 : Int) [] [mkCrumb "x", mkCrumb "y", mkCrumb "z"]) =
      [mkCrumb "x", mkCrumb "y", mkCrumb "z"].drop 1 ∧
    ([mkCrumb "x", mkCrumb "y", mkCrumb "z"].drop 1).length = 2 :=
  breadcrumb_overflow_keeps_last 2 (by decide)
    [mkCrumb "x", mkCrumb "y", mkCrumb "z"] (by decide)

/-- C7: whenever the `before_send` hook returns `None` for the built event,
`_send_event` returns `success=true, queued=false` and never hands the event
to `Transport.send` — whether the sampling gate already dropped it or the
hook did. -/
theorem before_send_drop_short_circuits (sampleRate draw : ℚ)
    (hook : TelemetryEvent → Option TelemetryEvent)
    (transport : TelemetryEvent → SendResult)
    (queue : Option (Int × List TelemetryEvent)) (event : TelemetryEvent)
    (hdrop : hook event = none) :
    sendEvent sampleRate draw (some hook) transport queue event =
      .ok ⟨⟨true, some event.event_id, none, false⟩, queue.map (fun q => q.2), []⟩ := by
  rw [sendEvent]
  by_cases h : draw > sampleRate
  · rw [if_pos h]
  · rw [if_neg h, hdrop]

/-- Closed instance of `before_send_drop_short_circuits` with a hook dropping
every event, `sample_rate = 1`, draw `1/2`. -/
theorem before_send_drop_short_circuits_witness :
    sendEvent 1 (1/2) (some fun _ => none)
      (fun e => ⟨true, some e.event_id, none, false⟩)
      (some (500, [])) (mkEvent "e1") =
      .ok ⟨⟨true, some (mkEvent "e1").event_id, none, false⟩, some [], []⟩ :=
  before_send_drop_short_circuits 1 (1/2) (fun _ => none)
    (fun e => ⟨true, some e.event_id, none, false⟩) (some (500, [])) (mkEvent "e1") rfl

/-- C3 counterexample: with `sample_rate = 0.0` the gate is
`random.random() > 0.0`, which does NOT fire when the draw is exactly `0.0`
(a possible value of `random.random()`), so the event proceeds to
`Transport.send`: the claim that Transport.send is never invoked for every
draw in `[0,1)` is false at draw `0`. -/
theorem sample_rate_zero_claim_false :
    ¬ (∀ (draw : ℚ), 0 ≤ draw → draw < 1 →
        ∀ (transport : TelemetryEvent → SendResult) (event : TelemetryEvent),
          (sendEvent 0 draw none transport none event).map SendOutcome.sends =
            .ok []) := by
  intro h
  have h0 := h 0 le_rfl (by norm_num)
    (fun e => ⟨true, some e.event_id, none, false⟩) (mkEvent "e1")
  rw [sendEvent, if_neg (by norm_num)] at h0
  simp [Except.map] at h0

/-- C3 as amended: with `sample_rate = 0.0`, every capture whose uniform draw
lies in the open interval `(0,1)` makes no `Transport.send` call, leaves the
queue untouched, and returns `success=true` with `queued=false`; only the
measure-zero draw `0.0` slips through to the network. -/
theorem sample_rate_zero_positive_draw_drops (draw : ℚ)
    (hpos : 0 < draw) (hlt : draw < 1)
    (beforeSend : Option (TelemetryEvent → Option TelemetryEvent))
    (transport : TelemetryEvent → SendResult)
    (queue : Option (Int × List TelemetryEvent)) (event : TelemetryEvent) :
    sendEvent 0 draw beforeSend transport queue event =
      .ok ⟨⟨true, some event.event_id, none, false⟩, queue.map (fun q => q.2), []⟩ := by
  rw [sendEvent.eq_def, if_pos hpos]

/-- Closed instance of `sample_rate_zero_positive_draw_drops` at draw `1/2`. -/
theorem sample_rate_zero_positive_draw_drops_witness :
    sendEvent 0 (1/2) none (fun e => ⟨true, some e.event_id, none, false⟩)
      (some (500, [mkEvent "q"])) (mkEvent "e1") =
      .ok ⟨⟨true, some (mkEvent "e1").event_id, none, false⟩, some [mkEvent "q"], []⟩ :=
  sample_rate_zero_positive_draw_drops (1/2) (by norm_num) (by norm_num) none
    (fun e => ⟨true, some e.event_id, none, false⟩) (some (500, [mkEvent "q"])) (mkEvent "e1")

/-- C4 counterexample: start a journey while the client has no user, then set
the client user. The journey is active but has no user; `_create_event`
evaluates `self._current_journey.get_user() if self._current_journey else
self._user`, which yields `None` — not the current client user `u1` as the
claim predicts. -/
theorem journey_user_fallback_claim_false :
    createEventUser
      { startJourney ⟨none, none⟩ with user := some ⟨"u1", none, none, none⟩ } = none ∧
    ({ startJourney ⟨none, none⟩ with
        user := some ⟨"u1", none, none, none⟩ } : ClientUserState).user ≠ none := by
  constructor
  · rfl
  · simp [startJourney]

/-- C4 as amended: while a journey is active the event carries the user
snapshot of the journey unconditionally — the current client user is consulted only
when no journey is active. Concretely: (1) a journey with a user wins; (2) a
journey without a user yields no user on the event, even if the client has
one; (3) with no journey the current client user is used; and (4) the
snapshot taken by `start_journey` is the client user at start time (with
`name` dropped by `Journey.set_user`), insensitive to later changes of the
client user. -/
theorem journey_user_precedence_amended :
    (∀ (c : ClientUserState) (j : JourneyUserState) (u : User),
        c.currentJourney = some j → j.user = some u → createEventUser c = some u) ∧
    (∀ (c : ClientUserState) (j : JourneyUserState),
        c.currentJourney = some j → j.user = none → createEventUser c = none) ∧
    (∀ c : ClientUserState, c.currentJourney = none → createEventUser c = c.user) ∧
    (∀ (c : ClientUserState) (laterUser : Option User),
        createEventUser { startJourney c with user := laterUser } =
          c.user.map journeyUserCopy) := by
  refine ⟨?_, ?_, ?_, ?_⟩
  · intro c j u hj hu
    simp [createEventUser, hj, hu]
  · intro c j hj hu
    simp [createEventUser, hj, hu]
  · intro c hj
    simp [createEventUser, hj]
  · intro c laterUser
    simp [createEventUser, startJourney]

/-- Closed instance of `journey_user_precedence_amended`: a journey carrying
user `ju` wins over client user `cu`. -/
theorem journey_user_precedence_amended_witness :
    createEventUser ⟨some ⟨"cu", none, none, none⟩, some ⟨some ⟨"ju", none, none, none⟩⟩⟩ =
      some ⟨"ju", none, none, none⟩ :=
  journey_user_precedence_amended.1
    ⟨some ⟨"cu", none, none, none⟩, some ⟨some ⟨"ju", none, none, none⟩⟩⟩
    ⟨some ⟨"ju", none, none, none⟩⟩ ⟨"ju", none, none, none⟩ rfl rfl

/-- C8 counterexample: a 200 response whose body is not valid JSON makes
`response.json()` raise inside the `try`; the outer `except` returns
`success=False` with the exception text — not `success=true` with the local
event id as the claim asserts for every response with status below 400. -/
theorem transport_2xx_nonjson_claim_false :
    transportSend (mkEvent "e1")
      (.ok ⟨200, "OK", .notJsonObject "Expecting value: line 1 column 1 (char 0)"⟩) =
      ⟨false, none, some "Expecting value: line 1 column 1 (char 0)", false⟩ ∧
    (⟨false, none, some "Expecting value: line 1 column 1 (char 0)", false⟩ : SendResult).success
      = false := by
  exact ⟨rfl, rfl⟩

/-- C8 as amended: for a response with status below 400 whose body parses as
a JSON object, `Transport.send` returns `success=true` with `event_id` the
`eventId` of the body when present and the locally generated event id otherwise
(in particular a 2xx JSON-object body without `eventId` yields the local id);
a body that does not parse as a JSON object instead yields `success=false`
carrying the exception text. -/
theorem transport_send_below_400 (event : TelemetryEvent) (status : Nat)
    (hstatus : status < 400) (txt : String) :
    (∀ eid : Option String,
        transportSend event (.ok ⟨status, txt, .jsonObject eid⟩) =
          ⟨true, some (eid.getD event.event_id), none, false⟩) ∧
    (∀ errText : String,
        transportSend event (.ok ⟨status, txt, .notJsonObject errText⟩) =
          ⟨false, none, some errText, false⟩) := by
  constructor
  · intro eid
    rw [transportSend, if_neg (by simp only [HttpResponse.status_code]; omega)]
  · intro errText
    rw [transportSend, if_neg (by simp only [HttpResponse.status_code]; omega)]

/-- Closed instance of `transport_send_below_400`: a 200 response with a JSON
object body lacking `eventId` succeeds with the local id, and one carrying
`eventId` succeeds with the server id. -/
theorem transport_send_below_400_witness :
    transportSend (mkEvent "e1") (.ok ⟨200, "OK", .jsonObject none⟩) =
      ⟨true, some "e1", none, false⟩ ∧
    transportSend (mkEvent "e1") (.ok ⟨200, "OK", .jsonObject (some "srv")⟩) =
      ⟨true, some "srv", none, false⟩ :=
  ⟨(transport_send_below_400 (mkEvent "e1") 200 (by omega) "OK").1 none,
   (transport_send_below_400 (mkEvent "e1") 200 (by omega) "OK").1 (some "srv")⟩

/-- The flush loop of `_process_queue`, iterating over the `get_all()`
snapshot `l` and removing from the live queue `acc` each event whose send
succeeded, filters the live queue by "no successfully-sent snapshot event has
my id". -/
theorem flush_foldl_eq_filter (succ : TelemetryEvent → Bool) :
    ∀ (l acc : List TelemetryEvent),
      l.foldl (fun acc e => if succ e then removeEvent acc e.event_id else acc) acc =
        acc.filter (fun x => !(l.any (fun e => succ e && (x.event_id == e.event_id)))) := by
  intro l
  induction l with
  | nil => intro acc; simp
  | cons e l ih =>
    intro acc
    rw [List.foldl_cons, ih]
    cases hs : succ e
    · simp only [hs, Bool.false_eq_true, if_neg, ite_false]
      apply List.filter_congr
      intro x hx
      simp [hs]
    · simp only [hs, ite_true]
      rw [removeEvent, List.filter_filter]
      apply List.filter_congr
      intro x hx
      cases hid : (x.event_id == e.event_id) <;> simp [hs, hid] <;>
        exact fun _ => by simpa using hid

/-- With pairwise-distinct event ids (the spec invariant on `event_id`),
the test that some successfully-sent snapshot event has the id of `x`
collapses to whether the send of `x` itself succeeded, for `x` in the queue. -/
theorem any_matching_eq_succ (q : List TelemetryEvent) (succ : TelemetryEvent → Bool)
    (hNodup : (q.map (fun e => e.event_id)).Nodup) :
    ∀ x ∈ q, (q.any (fun e => succ e && (x.event_id == e.event_id))) = succ x := by
  intro x hx
  cases hsx : succ x
  · rw [List.any_eq_false]
    intro e he hcontra
    simp only [Bool.and_eq_true, beq_iff_eq] at hcontra
    obtain ⟨hse, hid⟩ := hcontra
    have hxe : x = e := List.inj_on_of_nodup_map hNodup hx he hid
    rw [← hxe] at hse
    rw [hsx] at hse
    exact Bool.false_ne_true hse
  · rw [List.any_eq_true]
    exact ⟨x, hx, by simp [hsx]⟩

/-- C2: when `is_online()` is true and `Transport.send` succeeds for exactly
the events satisfying `succ`, `flush()` removes exactly those from the queue;
the failing events remain queued in their original relative order (the queue
afterwards is the original filtered to the non-successes), and every queued
event was offered to `Transport.send` once, in queue order. -/
theorem flush_online_removes_successes (q : List TelemetryEvent)
    (succ : TelemetryEvent → Bool)
    (hNodup : (q.map (fun e => e.event_id)).Nodup) :
    processQueue (some q) true succ = (some (q.filter (fun e => !succ e)), q) := by
  by_cases hq : q.isEmpty
  · have hnil : q = [] := by
      cases q with
      | nil => rfl
      | cons a l => simp at hq
    subst hnil
    simp [processQueue]
  · have hstep : processQueue (some q) true succ =
        (some (q.foldl (fun acc e =>
          if succ e then removeEvent acc e.event_id else acc) q), q) := by
      simp [processQueue, hq]
    rw [hstep, flush_foldl_eq_filter]
    have hfe : q.filter (fun x => !(q.any (fun e => succ e && (x.event_id == e.event_id)))) =
        q.filter (fun e => !succ e) := by
      apply List.filter_congr
      intro x hx
      rw [any_matching_eq_succ q succ hNodup x hx]
    rw [hfe]

/-- Closed instance of `flush_online_removes_successes`: queue `[a,b,c]`,
send succeeding exactly on `b`; `b` is removed, `a` and `c` stay in order,
all three were offered to `Transport.send`. -/
theorem flush_online_removes_successes_witness :
    processQueue (some [mkEvent "a", mkEvent "b", mkEvent "c"]) true
        (fun e => e.event_id == "b") =
      (some [mkEvent "a", mkEvent "c"], [mkEvent "a", mkEvent "b", mkEvent "c"]) := by
  have h := flush_online_removes_successes [mkEvent "a", mkEvent "b", mkEvent "c"]
    (fun e => e.event_id == "b") (by decide)
  simpa [mkEvent] using h

/-- Evaluating `SeverityLevel(l.value)` recovers `l`: the enum call inverts `.value`. -/
theorem severity_ofValue_value (l : SeverityLevel) :
    SeverityLevel.ofValue l.value = some l := by
  cases l <;> rfl

/-- Evaluating `BreadcrumbCategory(c.value)` recovers `c`. -/
theorem category_ofValue_value (c : BreadcrumbCategory) :
    BreadcrumbCategory.ofValue c.value = some c := by
  cases c <;> rfl

/-- Deserializing the stored form of a breadcrumb recovers the breadcrumb. -/
theorem deserializeBreadcrumb_roundtrip (b : Breadcrumb) :
    deserializeBreadcrumb
      ⟨b.timestamp.isoformat, b.category.value, b.message, b.level.value, b.data⟩ = some b := by
  simp [deserializeBreadcrumb, category_ofValue_value, severity_ofValue_value,
    DateTime.isoformat, IsoTimestamp.fromisoformat]

/-- Deserializing a stored breadcrumb list recovers the list. -/
theorem deserializeBreadcrumbs_roundtrip (bs : List Breadcrumb) :
    (bs.map (fun b =>
      (⟨b.timestamp.isoformat, b.category.value, b.message, b.level.value, b.data⟩ :
        StoredBreadcrumb))).mapM deserializeBreadcrumb = some bs := by
  induction bs with
  | nil => rfl
  | cons b bs ih =>
    rw [List.map_cons, List.mapM_cons, deserializeBreadcrumb_roundtrip, ih]
    rfl

/-- Round trip of the stacktrace through the queue store, under the conditions its field
selection forces: the column number and source context of every frame are
dropped on write, and an empty stored list would be read back as `None`. -/
theorem deserializeStacktrace_roundtrip (st : Option (List StackFrame))
    (hne : st ≠ some [])
    (hframes : ∀ f ∈ st.getD [], f.colno = none ∧ f.context = none) :
    deserializeStacktrace (serializeStacktrace st) = st := by
  match st with
  | none => rfl
  | some [] => exact absurd rfl hne
  | some (f :: fs) =>
    show deserializeStacktrace (serializeStacktrace (some (f :: fs))) = some (f :: fs)
    rw [serializeStacktrace]
    have hmap : (f :: fs).map (fun g => (⟨g.function, g.filename, g.lineno⟩ : StoredFrame)) =
        (⟨f.function, f.filename, f.lineno⟩ : StoredFrame) ::
          fs.map (fun g => (⟨g.function, g.filename, g.lineno⟩ : StoredFrame)) := rfl
    rw [hmap, deserializeStacktrace]
    rw [← hmap, List.map_map]
    have : (f :: fs).map ((fun g : StoredFrame =>
        (⟨g.function, g.filename, g.lineno, none, none⟩ : StackFrame)) ∘
        (fun g => (⟨g.function, g.filename, g.lineno⟩ : StoredFrame))) = f :: fs := by
      conv_rhs => rw [← List.map_id (f :: fs)]
      apply List.map_congr_left
      intro g hg
      obtain ⟨h1, h2⟩ := hframes g (by simpa using hg)
      cases g with
      | mk gf gfl gl gc gcx =>
        simp only [Function.comp_apply, List.map_id, id_eq]
        simp only at h1 h2
        rw [h1, h2]
    rw [this]

/-- Parsing with `fromisoformat` inverts `isoformat` (CPython guarantee, definitional in
this model). -/
theorem fromisoformat_isoformat (d : DateTime) : d.isoformat.fromisoformat = d := rfl

/-- Lemma `deserializeBreadcrumbs_roundtrip`, stated on the `List.mapM`
accumulator-passing implementation `loop` (definitionally the same function). -/
theorem deserializeBreadcrumbs_loop_roundtrip (bs : List Breadcrumb) :
    List.mapM.loop deserializeBreadcrumb
      (bs.map (fun b =>
        (⟨b.timestamp.isoformat, b.category.value, b.message, b.level.value, b.data⟩ :
          StoredBreadcrumb))) [] = some bs :=
  deserializeBreadcrumbs_roundtrip bs

/-- C1 as amended: the serialize/deserialize round trip of the offline queue
restores every observable field of the event, provided the user of the event (if
any) has `name = None` and its exception (if any) has a stacktrace that is
not the empty list and whose frames carry `colno = None` and
`context = None` — exactly the fields `_serialize_event` does not store.
Every event the client itself builds (`set_user` takes no name,
`_parse_exception` sets neither `colno` nor `context` and never produces an
empty frame list) satisfies these conditions. -/
theorem serialize_roundtrip_amended (event : TelemetryEvent)
    (huser : ∀ u, event.user = some u → u.name = none)
    (hexc : ∀ exc, event.exception = some exc → exc.stacktrace ≠ some [] ∧
      ∀ f ∈ exc.stacktrace.getD [], f.colno = none ∧ f.context = none) :
    deserialize_event (serialize_event event) = some event := by
  obtain ⟨eid, ts, lvl, plat, tags, extra, crumbs, msg, exc, usr, jour, env, appv⟩ := event
  simp only at huser hexc
  have hu : (usr.map (fun u : User => (⟨u.id, u.email, u.data⟩ : StoredUser))).map
      (fun u : StoredUser => (⟨u.id, u.email, none, u.data⟩ : User)) = usr := by
    cases usr with
    | none => rfl
    | some u =>
      obtain ⟨uid, ue, un, ud⟩ := u
      have hn : un = none := huser ⟨uid, ue, un, ud⟩ rfl
      rw [hn]
      rfl
  have hj : (jour.map (fun j : JourneyContext =>
      (⟨j.journey_id, j.name, j.current_step, j.started_at.isoformat, j.metadata⟩ :
        StoredJourney))).map
      (fun j : StoredJourney =>
        (⟨j.journey_id, j.name, j.started_at.fromisoformat, j.current_step, j.metadata⟩ :
          JourneyContext)) = jour := by
    cases jour with
    | none => rfl
    | some j => rfl
  simp only [Option.map_map] at hu hj
  cases exc with
  | none =>
    simp [serialize_event, deserialize_event, deserializeBreadcrumbs_loop_roundtrip,
      deserializeBreadcrumbs_roundtrip, severity_ofValue_value, hu, hj,
      fromisoformat_isoformat]
  | some e =>
    have he := hexc e rfl
    have hst := deserializeStacktrace_roundtrip e.stacktrace he.1 he.2
    simp [serialize_event, deserialize_event, deserializeBreadcrumbs_loop_roundtrip,
      deserializeBreadcrumbs_roundtrip, severity_ofValue_value, hu, hj, hst,
      fromisoformat_isoformat]

/-- C1 counterexample: `_serialize_event` stores only `id`, `email`, `data`
of the user — `name` is dropped — and `_deserialize_event` rebuilds the user
with the dataclass default `name=None`, so an event whose user has a name
does not survive the round trip. -/
theorem serialize_roundtrip_claim_false :
    deserialize_event (serialize_event
      { mkEvent "e1" with user := some ⟨"u1", none, some "Grace", none⟩ }) ≠
      some { mkEvent "e1" with user := some ⟨"u1", none, some "Grace", none⟩ } := by
  intro h
  simp [deserialize_event, serialize_event, mkEvent, SeverityLevel.ofValue,
    SeverityLevel.value, deserializeBreadcrumbs_loop_roundtrip,
    fromisoformat_isoformat, List.mapM.loop] at h

/-- A concrete event exercising every nested structure, satisfying the
amended round-trip conditions. -/
def roundtripEvent : TelemetryEvent :=
  { event_id := "e2", timestamp := ⟨100⟩, level := .error,
    platform := ⟨"python", some "3.11.0", some "Linux"⟩,
    tags := [("k", "v")], extra := [("n", Json.num 1)],
    breadcrumbs := [⟨⟨5⟩, .http, "GET /", .info, some (Json.obj [("status", Json.num 200)])⟩],
    message := some "boom",
    exception := some ⟨"ValueError", "boom", some [⟨some "f", some "a.py", some 3, none, none⟩]⟩,
    user := some ⟨"u1", some "u@example.com", none, none⟩,
    journey := some ⟨"j1", "checkout", ⟨7⟩, some "pay", [("m", Json.str "x")]⟩,
    environment := some "production", app_version := some "1.0.0" }

/-- Closed instance of `serialize_roundtrip_amended` on an event with
breadcrumbs, exception (with a stack frame), user, and journey. -/
theorem serialize_roundtrip_amended_witness :
    deserialize_event (serialize_event roundtripEvent) = some roundtripEvent :=
  serialize_roundtrip_amended roundtripEvent
    (by rintro u h; cases h; rfl)
    (by rintro exc h; cases h; exact ⟨by decide, by decide⟩)
